import Mathlib

set_option maxHeartbeats 4000000

attribute [local semireducible] Rat.add Rat.mul Rat.inv Rat.sub

/- Shallow embedding of the synth-controller repository (src/synth: audio.py,
   config_store.py, matrix.py, controller.py).  Python dicts are modelled as
   association lists with in-place-overwrite-or-append assignment, floats as
   exact rationals (or reals where a transcendental frequency is computed),
   and raised exceptions as Except values. -/

/-- Lookup in the association-list model of a Python dict. -/
def dget {κ α : Type} [BEq κ] (d : List (κ × α)) (k : κ) : Option α :=
  (d.find? (fun p => p.1 == k)).map (fun p => p.2)

/-- Python dict assignment d[k] = v: overwrite in place when the key exists,
    otherwise append at the end (insertion-order semantics). -/
def dset {κ α : Type} [BEq κ] (d : List (κ × α)) (k : κ) (v : α) : List (κ × α) :=
  if d.any (fun p => p.1 == k) then
    d.map (fun p => if p.1 == k then (k, v) else p)
  else d ++ [(k, v)]

/-- Python str.strip(): remove leading and trailing whitespace. -/
def pyStrip (s : String) : String :=
  ⟨((s.data.dropWhile Char.isWhitespace).reverse.dropWhile Char.isWhitespace).reverse⟩

/-- Python str.upper() on the ASCII note strings used here. -/
def pyUpper (s : String) : String :=
  ⟨s.data.map Char.toUpper⟩

/-- Value of a nonempty string of decimal digits. -/
def digitsToNat (cs : List Char) : ℕ :=
  cs.foldl (fun a c => 10 * a + (c.toNat - 48)) 0

/-- Python int(str): one optional leading sign followed by digits, else a
    ValueError (modelled as none). -/
def pyIntOfString (s : String) : Option ℤ :=
  match s.data with
  | [] => none
  | '-' :: rest =>
    if rest ≠ [] ∧ rest.all Char.isDigit then some (-(digitsToNat rest : ℤ)) else none
  | '+' :: rest =>
    if rest ≠ [] ∧ rest.all Char.isDigit then some ((digitsToNat rest : ℤ)) else none
  | cs =>
    if cs ≠ [] ∧ cs.all Char.isDigit then some ((digitsToNat cs : ℤ)) else none

/-- Python int() applied to a float: truncation toward zero. -/
def pyTrunc (q : ℚ) : ℤ := if 0 ≤ q then ⌊q⌋ else ⌈q⌉

/-- Python `x or default` for an optional string: None and the empty string
    are falsy. -/
def pyOrStr (o : Option String) (dflt : String) : String :=
  match o with
  | some s => if s = "" then dflt else s
  | none => dflt

/-- Python `x or default` for an optional number: None and 0 are falsy. -/
def pyOrStep (o : Option ℚ) (dflt : ℚ) : ℚ :=
  match o with
  | some v => if v = 0 then dflt else v
  | none => dflt

/-- Check for Except success. -/
def isOkB {ε α : Type} : Except ε α → Bool
  | .ok _ => true
  | .error _ => false

/-- Except to Option, dropping the error (a caught exception). -/
def exceptToOption {ε α : Type} : Except ε α → Option α
  | .ok a => some a
  | .error _ => none

/- ----------------------------------------------------------------- audio.py -/

def A4_FREQ : ℝ := 440

def NOTE_NAMES : List String :=
  ["C", "C#", "D", "D#", "E", "F"] ++ ["F#", "G", "G#", "A", "A#", "B"]

/-- Parsing part of audio.note_to_frequency: strip, reject strings shorter
    than 2, collect trailing digit/sign characters as the octave, require the
    remaining prefix to be a canonical pitch-class name, and return the
    semitone (MIDI) index.  Each error mirrors a ValueError path. -/
def noteToMidi (note : String) : Except String ℤ :=
  let raw := pyStrip note
  if raw.length < 2 then .error ("invalid note " ++ note)
  else
    let rev := raw.data.reverse
    let digitsRev := rev.takeWhile (fun c => c.isDigit || c == '-' || c == '+')
    if digitsRev = [] then .error ("missing octave in note " ++ note)
    else
      match pyIntOfString ⟨digitsRev.reverse⟩ with
      | none => .error ("invalid literal for int: " ++ (⟨digitsRev.reverse⟩ : String))
      | some octave =>
        let pitch : String := ⟨(rev.drop digitsRev.length).reverse⟩
        if pitch ∈ NOTE_NAMES then
          .ok ((NOTE_NAMES.indexOf pitch : ℤ) + (octave + 1) * 12)
        else .error ("unknown pitch class " ++ pitch)

/-- Frequency assigned to a semitone index: 440 * 2 ^ ((index - 69) / 12). -/
noncomputable def freqOfIndex (i : ℤ) : ℝ :=
  A4_FREQ * (2 : ℝ) ^ (((i : ℝ) - 69) / 12)

/-- audio.note_to_frequency. -/
noncomputable def note_to_frequency (note : String) (transpose : ℤ) : Except String ℝ :=
  match noteToMidi note with
  | .error e => .error e
  | .ok midi_index => .ok (freqOfIndex (midi_index + transpose))

/-- math.isclose with its default tolerances (rel_tol = 1e-9, abs_tol = 0). -/
def isclose (a b : ℚ) : Bool :=
  decide (|a - b| ≤ max ((1 / 1000000000) * max |a| |b|) 0)

/-- State of audio.NoteSynth.  The buffer cache is modelled by its key set
    (waveform, frequency rounded to 3 decimals, volume, attack_ms,
    release_ms); playing by the set of key ids with an active voice. -/
structure NoteSynth where
  sample_rate : ℤ
  voice_duration : ℚ
  waveform : String
  volume : ℚ
  transpose : ℤ
  attack_ms : ℤ
  release_ms : ℤ
  cache : List (String × ℚ × ℚ × ℤ × ℤ)
  playing : List String
  key_notes : List (String × String)
  warned : Bool
  sa_available : Bool
  deriving DecidableEq

/-- NoteSynth.__init__ with its default field values; sa_available records
    whether the optional simpleaudio backend imported. -/
def mkNoteSynth (sa_available : Bool) : NoteSynth :=
  { sample_rate := 44100, voice_duration := 3, waveform := "sine", volume := 7 / 10,
    transpose := 0, attack_ms := 5, release_ms := 160,
    cache := [], playing := [], key_notes := [], warned := false,
    sa_available := sa_available }

def set_key_notes (s : NoteSynth) (mapping : List (String × String)) : NoteSynth :=
  { s with key_notes := mapping }

def set_waveform (s : NoteSynth) (waveform : String) : NoteSynth :=
  if waveform ≠ s.waveform then { s with waveform := waveform, cache := [] } else s

def set_volume (s : NoteSynth) (volume : ℚ) : NoteSynth :=
  let v := max 0 (min 1 volume)
  if !isclose v s.volume then { s with volume := v, cache := [] } else s

def set_transpose (s : NoteSynth) (semitones : ℤ) : NoteSynth :=
  if semitones ≠ s.transpose then { s with transpose := semitones } else s

def set_envelope (s : NoteSynth) (attack_ms release_ms : ℤ) : NoteSynth :=
  if attack_ms ≠ s.attack_ms ∨ release_ms ≠ s.release_ms then
    { s with attack_ms := attack_ms, release_ms := release_ms, cache := [] }
  else s

open scoped Classical in
/-- Python round() and round(x, 3) use round-half-to-even. -/
noncomputable def pyRoundHalfEven (x : ℝ) : ℤ :=
  if Int.fract x = 1 / 2 then (if Even ⌊x⌋ then ⌊x⌋ else ⌊x⌋ + 1) else round x

noncomputable def pyRound3 (x : ℝ) : ℚ :=
  (pyRoundHalfEven (x * 1000) : ℚ) / 1000

/-- Cache effect of NoteSynth._build_buffer: memoize on the cache key; the
    generated PCM bytes themselves are outside the model. -/
noncomputable def _build_buffer (s : NoteSynth) (freq : ℝ) : NoteSynth :=
  let key := (s.waveform, pyRound3 freq, s.volume, s.attack_ms, s.release_ms)
  if key ∈ s.cache then s else { s with cache := s.cache ++ [key] }

/-- NoteSynth.note_on: returns the new state and the info record
    (note name, optional frequency). -/
noncomputable def note_on (s : NoteSynth) (key_id : String) (default_note : Option String) :
    NoteSynth × (String × Option ℝ) :=
  let note_name := (dget s.key_notes key_id).getD (pyOrStr default_note "C4")
  match note_to_frequency note_name s.transpose with
  | .error _ => (s, (note_name, none))
  | .ok freq =>
    if !s.sa_available then
      ({ s with warned := true }, (note_name, some freq))
    else
      let s1 := _build_buffer s freq
      ({ s1 with playing := if s1.playing.contains key_id then s1.playing else s1.playing ++ [key_id] },
       (note_name, some freq))

def note_off (s : NoteSynth) (key_id : String) : NoteSynth :=
  if !s.sa_available then s
  else { s with playing := s.playing.filter (fun k => k != key_id) }

/- ---------------------------------------------------------- config_store.py -/

def SUPPORTED_WAVEFORMS : List String := ["sine", "square", "saw", "triangle"]

def EncoderActionValues : List String := ["none", "transpose", "volume", "waveform"]

def FLAT_TO_SHARP : List (String × String) :=
  [("Db", "C#"), ("Eb", "D#"), ("Gb", "F#"), ("Ab", "G#"), ("Bb", "A#")]

/-- Accidental marker and remaining characters after the head letter, as in
    _normalise_note. -/
def splitAccidental (rest0 : List Char) : String × List Char :=
  match rest0 with
  | [] => ("", [])
  | c :: cs =>
    if c = '#' ∨ c = '♯' then ("#", cs)
    else if c = 'b' ∨ c = '♭' then ("b", cs)
    else ("", rest0)

/-- FLAT_TO_SHARP rewrite step of _normalise_note: a flat key maps to its
    sharp name, anything else is upper-cased. -/
def pitchOf (pitch_key pitch0 : String) : String :=
  match dget FLAT_TO_SHARP pitch_key with
  | some sharp => sharp
  | none => pyUpper pitch0

/-- Octave tail of _normalise_note: integer octave in -1..8, appended to the
    accepted pitch name. -/
def octaveTail (pitch : String) (remainder : List Char) : Except String String :=
  if remainder = [] ∨
     ¬(remainder.dropWhile (fun c => c == '-' || c == '+') ≠ [] ∧
       (remainder.dropWhile (fun c => c == '-' || c == '+')).all Char.isDigit) then
    .error "octave must be an integer"
  else
    match pyIntOfString ⟨remainder⟩ with
    | none => .error ("invalid literal for int: " ++ (⟨remainder⟩ : String))
    | some octave =>
      if octave < -1 ∨ 8 < octave then .error "octave out of supported range (-1..8)"
      else .ok (pitch ++ toString octave)

/-- Body of config_store._normalise_note on the characters of the stripped
    input. -/
def normaliseNoteAux (raw : List Char) : Except String String :=
  match raw with
  | [] => .error "note must not be empty"
  | h :: rest0 =>
    let head := h.toUpper
    let accRem := splitAccidental rest0
    let accidental := accRem.1
    let remainder := accRem.2
    -- pitch.replace("H", "B"): only the head character can be an H here.
    let pitch0 : String := (⟨[if head = 'H' then 'B' else head]⟩ : String) ++ accidental
    let pitch_key := if accidental ≠ "" then pitch0 else pyUpper pitch0
    let pitch := pitchOf pitch_key pitch0
    if pitch ∉ NOTE_NAMES then .error ("unsupported pitch class " ++ pitch)
    else octaveTail pitch remainder

/-- config_store._normalise_note. -/
def _normalise_note (value : String) : Except String String :=
  normaliseNoteAux (pyStrip value).data

/-- KeyConfig: shape shared by the pydantic model and its model_dump dict. -/
structure KeyConfig where
  id : String
  row : String
  col : String
  note : String
  label : Option String
  deriving DecidableEq

structure EncoderConfig where
  name : String
  A : ℤ
  B : ℤ
  action : String
  step : Option ℚ
  minimum : Option ℚ
  maximum : Option ℚ
  deriving DecidableEq

structure MatrixConfig where
  rows : List (String × ℤ)
  cols : List (String × ℤ)
  keys : List KeyConfig
  deriving DecidableEq

structure SynthSettings where
  waveform : String
  volume : ℚ
  transpose : ℤ
  attack_ms : ℤ
  release_ms : ℤ
  deriving DecidableEq

structure AppSettings where
  web_host : String
  web_port : ℤ
  debounce_ms : ℤ
  deriving DecidableEq

structure ControllerConfig where
  matrix : MatrixConfig
  encoders : List EncoderConfig
  synth : SynthSettings
  app : AppSettings
  deriving DecidableEq

/-- Validation of a KeyConfig document: the note validator normalises. -/
def validate_key (k : KeyConfig) : Except String KeyConfig :=
  (_normalise_note k.note).map (fun n => { k with note := n })

def validate_encoder (e : EncoderConfig) : Except String EncoderConfig :=
  if e.action ∉ EncoderActionValues then
    .error "action must be one of none, transpose, volume, waveform"
  else
    match e.step with
    | some v => if v ≤ 0 then .error "step must be positive" else .ok e
    | none => .ok e

def validate_synth (s : SynthSettings) : Except String SynthSettings :=
  if s.waveform ∉ SUPPORTED_WAVEFORMS then
    .error "waveform must be one of sine, square, saw, triangle"
  else if s.volume < 0 ∨ 1 < s.volume then .error "volume out of range"
  else if s.transpose < -24 ∨ 24 < s.transpose then .error "transpose out of range"
  else if s.attack_ms < 0 ∨ 500 < s.attack_ms then .error "attack_ms out of range"
  else if s.release_ms < 10 ∨ 5000 < s.release_ms then .error "release_ms out of range"
  else .ok s

def validate_app (a : AppSettings) : Except String AppSettings :=
  if a.debounce_ms < 1 ∨ 100 < a.debounce_ms then .error "debounce_ms out of range" else .ok a

def validate_matrix (m : MatrixConfig) : Except String MatrixConfig :=
  (m.keys.mapM validate_key).map (fun ks => { m with keys := ks })

/-- ControllerConfig.model_validate on a full document. -/
def validate_config (c : ControllerConfig) : Except String ControllerConfig := do
  let m ← validate_matrix c.matrix
  let es ← c.encoders.mapM validate_encoder
  let s ← validate_synth c.synth
  let a ← validate_app c.app
  .ok ⟨m, es, s, a⟩

/-- model_dump(mode="python"): the dict carries exactly the model's content,
    so in this embedding it is the identity on the shared document shape. -/
def model_dump (c : ControllerConfig) : ControllerConfig := c

/-- ConfigStore state: the persisted document and the in-memory cache. -/
structure StoreState where
  disk : Option ControllerConfig
  cached : Option ControllerConfig
  deriving DecidableEq

/-- ConfigStore.load: missing file raises; otherwise validate and cache. -/
def store_load (s : StoreState) : Except String (StoreState × ControllerConfig) :=
  match s.disk with
  | none => .error "file not found"
  | some raw => (validate_config raw).map (fun c => ({ s with cached := some c }, c))

def store_get_cached (s : StoreState) : Except String (StoreState × ControllerConfig) :=
  match s.cached with
  | some c => .ok (s, c)
  | none => store_load s

/-- ConfigStore.save on a dict payload: validate fully, then write. -/
def store_save (s : StoreState) (payload : ControllerConfig) :
    Except String (StoreState × ControllerConfig) :=
  (validate_config payload).map
    (fun m => ({ s with disk := some (model_dump m), cached := some m }, m))

/-- ConfigStore.save on an already-built model instance: no validation. -/
def store_save_model (s : StoreState) (m : ControllerConfig) : StoreState × ControllerConfig :=
  ({ s with disk := some (model_dump m), cached := some m }, m)

/-- Payload of ConfigStore.update / model_copy(update=...): whole top-level
    sections replaced verbatim, without validation. -/
structure PartUpdate where
  matrix : Option MatrixConfig
  encoders : Option (List EncoderConfig)
  synth : Option SynthSettings
  app : Option AppSettings

def model_copy_update (c : ControllerConfig) (p : PartUpdate) : ControllerConfig :=
  { matrix := p.matrix.getD c.matrix,
    encoders := p.encoders.getD c.encoders,
    synth := p.synth.getD c.synth,
    app := p.app.getD c.app }

def store_update (s : StoreState) (p : PartUpdate) :
    Except String (StoreState × ControllerConfig) :=
  (store_get_cached s).map (fun sc => store_save_model sc.1 (model_copy_update sc.2 p))

/- ---------------------------------------------------------------- matrix.py -/

/-- One entry of the key_map handed to MatrixScanner. -/
structure KeyWire where
  id : String
  row : String
  col : String
  deriving DecidableEq

/-- MatrixScanner state: static wiring lookup plus per-key last-known state
    and last-accepted-transition time (seconds, exact rationals). -/
structure MatrixScanner where
  rows : List (String × ℤ)
  cols : List (String × ℤ)
  debounce : ℚ
  lookup : List ((ℤ × ℤ) × String)
  state : List (String × Bool)
  last : List (String × ℚ)
  deriving DecidableEq

/-- MatrixScanner.__init__: resolve each key's row/col names to pins (a
    missing name would raise KeyError, modelled as none), build the
    (row pin, col pin) -> id lookup, and initialise every key released with
    last-change time 0. -/
def mkMatrixScanner (rows cols : List (String × ℤ)) (key_map : List KeyWire)
    (debounce_ms : ℚ) : Option MatrixScanner :=
  (key_map.mapM (fun k =>
      (dget rows k.row).bind (fun rp =>
        (dget cols k.col).map (fun cp => ((rp, cp), k.id))))).map
    (fun entries =>
      { rows := rows, cols := cols, debounce := debounce_ms / 1000,
        lookup := entries.foldl (fun d e => dset d e.1 e.2) [],
        state := key_map.foldl (fun d k => dset d k.id false) [],
        last := key_map.foldl (fun d k => dset d k.id (0 : ℚ)) [] })

/-- Body of the scan loop for one observed (key, pressed) sample: accept the
    transition only when the observed state differs from the last-known state
    and the debounce window has elapsed since the key's last accepted
    transition. -/
def scanEvent (debounce tnow : ℚ)
    (acc : List (String × String) × List (String × Bool) × List (String × ℚ))
    (ob : String × Bool) :
    List (String × String) × List (String × Bool) × List (String × ℚ) :=
  let kid := ob.1
  let pressed := ob.2
  if pressed ≠ (dget acc.2.1 kid).getD false then
    if tnow - (dget acc.2.2 kid).getD 0 ≥ debounce then
      (acc.1 ++ [((if pressed then "press" else "release"), kid)],
       dset acc.2.1 kid pressed, dset acc.2.2 kid tnow)
    else acc
  else acc

/-- MatrixScanner.scan_once.  tnow is sampled once at entry; reads gives the
    level sampled on a column pin while a row pin is driven active, and a
    read of 0 means pressed.  The GPIO writes and the settle sleep have no
    further effect in the model. -/
def scan_once (sc : MatrixScanner) (reads : ℤ → ℤ → ℤ) (tnow : ℚ) :
    List (String × String) × MatrixScanner :=
  let res := sc.rows.foldl
    (fun acc r =>
      sc.cols.foldl
        (fun acc2 c =>
          match dget sc.lookup (r.2, c.2) with
          | none => acc2
          | some kid =>
            -- `if not key_id: continue` also skips a falsy (empty) id.
            if kid = "" then acc2
            else scanEvent sc.debounce tnow acc2 (kid, reads r.2 c.2 == 0))
        acc)
    ([], sc.state, sc.last)
  (res.1, { sc with state := res.2.1, last := res.2.2 })

/-- The ordered list of (key id, observed pressed) samples scan_once handles,
    used to state its specification. -/
def scanObsList (sc : MatrixScanner) (reads : ℤ → ℤ → ℤ) : List (String × Bool) :=
  ((sc.rows.bind (fun r => sc.cols.map (fun c => (r, c)))).filterMap
    (fun rc =>
      match dget sc.lookup (rc.1.2, rc.2.2) with
      | none => none
      | some kid =>
        if kid = "" then none
        else some (kid, reads rc.1.2 rc.2.2 == 0)))

/-- Fold of scanEvent over the observation list, the specification form of
    scan_once's loop. -/
def scanFold (sc : MatrixScanner) (reads : ℤ → ℤ → ℤ) (tnow : ℚ) :
    List (String × String) × List (String × Bool) × List (String × ℚ) :=
  (scanObsList sc reads).foldl (scanEvent sc.debounce tnow) ([], sc.state, sc.last)

/- ------------------------------------------------------------ controller.py -/

/-- Values appearing in the outward event dicts. -/
inductive PyVal where
  | vs (s : String)
  | vi (n : ℤ)
  | vq (q : ℚ)
  | vr (r : ℝ)
  | vnull

/-- Per-encoder history entry kept in runtime state. -/
structure EncoderHist where
  action : String
  value : PyVal
  delta : ℤ

/-- The live mirror of SynthSettings kept in SynthController.live_settings. -/
structure LiveSettings where
  waveform : String
  volume : ℚ
  transpose : ℤ
  attack_ms : ℤ
  release_ms : ℤ
  deriving DecidableEq

def liveOf (s : SynthSettings) : LiveSettings :=
  ⟨s.waveform, s.volume, s.transpose, s.attack_ms, s.release_ms⟩

/-- SynthController state. -/
structure CtrlState where
  store : StoreState
  config : ControllerConfig
  key_lookup : List (String × KeyConfig)
  encoder_lookup : List (String × EncoderConfig)
  key_state : List (String × Bool)
  encoder_state : List (String × EncoderHist)
  live : LiveSettings
  synth : NoteSynth

def buildKeyLookup (c : ControllerConfig) : List (String × KeyConfig) :=
  c.matrix.keys.foldl (fun d k => dset d k.id k) []

def buildEncoderLookup (c : ControllerConfig) : List (String × EncoderConfig) :=
  c.encoders.foldl (fun d e => dset d e.name e) []

def buildKeyState (c : ControllerConfig) : List (String × Bool) :=
  c.matrix.keys.foldl (fun d k => dset d k.id false) []

def buildKeyNotes (c : ControllerConfig) : List (String × String) :=
  c.matrix.keys.foldl (fun d k => dset d k.id k.note) []

/-- SynthController._apply_config. -/
def _apply_config (st : CtrlState) (config : ControllerConfig) : CtrlState :=
  let settings := config.synth
  let synth := set_key_notes st.synth (buildKeyNotes config)
  let synth := set_waveform synth settings.waveform
  let synth := set_volume synth settings.volume
  let synth := set_transpose synth settings.transpose
  let synth := set_envelope synth settings.attack_ms settings.release_ms
  { st with
    config := config,
    key_lookup := buildKeyLookup config,
    encoder_lookup := buildEncoderLookup config,
    key_state := buildKeyState config,
    encoder_state := [],
    live := liveOf settings,
    synth := synth }

/-- Shared tail of every configuration-mutating controller operation:
    a raised store error propagates with the state as it stands, a returned
    config goes through _apply_config. -/
def finishSave (st : CtrlState) (r : Except String (StoreState × ControllerConfig)) :
    CtrlState × Except String ControllerConfig :=
  match r with
  | .error e => (st, .error e)
  | .ok (s, config) => (_apply_config { st with store := s } config, .ok config)

/-- SynthController.reload. -/
def reloadOp (st : CtrlState) : CtrlState × Except String ControllerConfig :=
  finishSave st (store_load st.store)

/-- SynthController.replace. -/
def replaceOp (st : CtrlState) (config_payload : ControllerConfig) :
    CtrlState × Except String ControllerConfig :=
  finishSave st (store_save st.store config_payload)

/-- SynthController.update_part. -/
def update_part (st : CtrlState) (payload : PartUpdate) :
    CtrlState × Except String ControllerConfig :=
  finishSave st (store_update st.store payload)

/-- SynthController.get_runtime_state: keys, encoders and synth sections. -/
def get_runtime_state (st : CtrlState) :
    List (String × Bool) × List (String × EncoderHist) × LiveSettings :=
  (st.key_state, st.encoder_state, st.live)

/-- SynthController.handle_key_event: the pressed flag is written into
    key_state before the lookup; unknown ids yield the degraded record. -/
noncomputable def handle_key_event (st : CtrlState) (kind : String) (key_id : String) :
    CtrlState × List (String × PyVal) :=
  let pressed := kind == "press"
  let st1 := { st with key_state := dset st.key_state key_id pressed }
  match dget st1.key_lookup key_id with
  | none =>
    (st1, [("type", .vs "key"), ("kind", .vs kind), ("id", .vs key_id),
           ("note", .vnull), ("freq", .vnull), ("label", .vs key_id)])
  | some key_cfg =>
    let res : CtrlState × Option ℝ :=
      if pressed then
        let r := note_on st1.synth key_id (some key_cfg.note)
        ({ st1 with synth := r.1 }, r.2.2)
      else
        let sy := note_off st1.synth key_id
        let freq := exceptToOption (note_to_frequency key_cfg.note st1.live.transpose)
        ({ st1 with synth := sy }, freq)
    (res.1, [("type", .vs "key"), ("kind", .vs kind), ("id", .vs key_id),
             ("note", .vs key_cfg.note),
             ("freq", match res.2 with | some f => .vr f | none => .vnull),
             ("label", .vs (pyOrStr key_cfg.label key_id))])

def clampZ (lo hi v : ℤ) : ℤ := max lo (min hi v)

def clampQ (lo hi v : ℚ) : ℚ := max lo (min hi v)

/-- SynthController.handle_encoder_event. -/
def handle_encoder_event (st : CtrlState) (name : String) (delta : ℤ) :
    CtrlState × List (String × PyVal) :=
  match dget st.encoder_lookup name with
  | none =>
    (st, [("type", .vs "enc"), ("name", .vs name), ("value", .vnull), ("delta", .vi delta)])
  | some enc_cfg =>
    let action := enc_cfg.action
    let stval : CtrlState × PyVal :=
      if action = "transpose" then
        let step := pyTrunc (pyOrStep enc_cfg.step 1)
        let transpose := clampZ (-24) 24 (st.live.transpose + delta * step)
        ({ st with live := { st.live with transpose := transpose },
                   synth := set_transpose st.synth transpose }, .vi transpose)
      else if action = "volume" then
        let step := pyOrStep enc_cfg.step (1 / 20)
        let volume := clampQ 0 1 (st.live.volume + (delta : ℚ) * step)
        ({ st with live := { st.live with volume := volume },
                   synth := set_volume st.synth volume }, .vq volume)
      else if action = "waveform" then
        let current := st.live.waveform
        let idx : ℤ :=
          if current ∈ SUPPORTED_WAVEFORMS then (SUPPORTED_WAVEFORMS.indexOf current : ℤ) else 0
        let idx2 := (idx + delta) % (SUPPORTED_WAVEFORMS.length : ℤ)
        let waveform := SUPPORTED_WAVEFORMS.getD idx2.toNat "sine"
        ({ st with live := { st.live with waveform := waveform },
                   synth := set_waveform st.synth waveform }, .vs waveform)
      else (st, .vnull)
    let st2 := { stval.1 with
      encoder_state := dset stval.1.encoder_state name ⟨action, stval.2, delta⟩ }
    (st2, [("type", .vs "enc"), ("name", .vs name), ("action", .vs action),
           ("value", stval.2), ("delta", .vi delta)])

/-- SynthController.set_key_note.  The looked-up key_cfg is the same object
    as the entry in config.matrix.keys, so the pre-validation assignment
    key_cfg.note = note is visible through both the lookup table and the
    in-memory configuration, and survives a failed save. -/
def set_key_note (st : CtrlState) (key_id : String) (note : String) :
    CtrlState × Except String ControllerConfig :=
  match dget st.key_lookup key_id with
  | none => (st, .error ("unknown key " ++ key_id))
  | some key_cfg =>
    let key_cfg := { key_cfg with note := note }
    let st1 := { st with
      key_lookup := dset st.key_lookup key_id key_cfg,
      config := { st.config with matrix := { st.config.matrix with
        keys := st.config.matrix.keys.map
          (fun k => if k.id = key_id then { k with note := note } else k) } } }
    let payload := model_dump st1.config
    let payload := { payload with matrix := { payload.matrix with
      keys := payload.matrix.keys.map
        (fun e => if e.id = key_id then { e with note := note } else e) } }
    finishSave st1 (store_save st1.store payload)

/-- SynthController.set_encoder_action, with the same aliased pre-validation
    mutation of the looked-up EncoderConfig object. -/
def set_encoder_action (st : CtrlState) (name : String) (action : String) :
    CtrlState × Except String ControllerConfig :=
  match dget st.encoder_lookup name with
  | none => (st, .error ("unknown encoder " ++ name))
  | some enc_cfg =>
    let enc_cfg := { enc_cfg with action := action }
    let st1 := { st with
      encoder_lookup := dset st.encoder_lookup name enc_cfg,
      config := { st.config with
        encoders := st.config.encoders.map
          (fun e => if e.name = name then { e with action := action } else e) } }
    let payload := model_dump st1.config
    let payload := { payload with
      encoders := payload.encoders.map
        (fun e => if e.name = name then { e with action := action } else e) }
    finishSave st1 (store_save st1.store payload)

/-- update_data for SynthController.update_encoder, already restricted to the
    allowed keys; an outer none means the key is absent from the request. -/
structure EncoderUpdate where
  action : Option String
  step : Option (Option ℚ)
  minimum : Option (Option ℚ)
  maximum : Option (Option ℚ)

def apply_encoder_update (e : EncoderConfig) (u : EncoderUpdate) : EncoderConfig :=
  { e with action := u.action.getD e.action,
           step := u.step.getD e.step,
           minimum := u.minimum.getD e.minimum,
           maximum := u.maximum.getD e.maximum }

/-- SynthController.update_encoder. -/
def update_encoder (st : CtrlState) (name : String) (u : EncoderUpdate) :
    CtrlState × Except String ControllerConfig :=
  match dget st.encoder_lookup name with
  | none => (st, .error ("unknown encoder " ++ name))
  | some _ =>
    if u.action = none ∧ u.step = none ∧ u.minimum = none ∧ u.maximum = none then
      (st, .error "no encoder fields to update")
    else
      let payload := model_dump st.config
      let payload := { payload with
        encoders := payload.encoders.map
          (fun e => if e.name = name then apply_encoder_update e u else e) }
      finishSave st (store_save st.store payload)

/-- update_data for SynthController.update_synth_settings, restricted to the
    allowed keys. -/
structure SynthUpdate where
  waveform : Option String
  volume : Option ℚ
  transpose : Option ℤ
  attack_ms : Option ℤ
  release_ms : Option ℤ

def apply_synth_update (s : SynthSettings) (u : SynthUpdate) : SynthSettings :=
  { waveform := u.waveform.getD s.waveform,
    volume := u.volume.getD s.volume,
    transpose := u.transpose.getD s.transpose,
    attack_ms := u.attack_ms.getD s.attack_ms,
    release_ms := u.release_ms.getD s.release_ms }

/-- SynthController.update_synth_settings. -/
def update_synth_settings (st : CtrlState) (u : SynthUpdate) :
    CtrlState × Except String ControllerConfig :=
  if u.waveform = none ∧ u.volume = none ∧ u.transpose = none ∧
     u.attack_ms = none ∧ u.release_ms = none then
    (st, .error "no synth fields to update")
  else
    let payload := model_dump st.config
    let payload := { payload with synth := apply_synth_update payload.synth u }
    finishSave st (store_save st.store payload)

/-- SynthController state is fully reconciled against a configuration:
    the lookup tables are exactly the rebuilt ones, every per-key pressed
    flag is false, the encoder history is empty, and the live settings equal
    the configuration's synth settings. -/
def reconciled (st : CtrlState) (cfg : ControllerConfig) : Prop :=
  st.config = cfg ∧
  st.key_lookup = buildKeyLookup cfg ∧
  st.encoder_lookup = buildEncoderLookup cfg ∧
  st.key_state = buildKeyState cfg ∧
  (∀ p ∈ st.key_state, p.2 = false) ∧
  st.encoder_state = [] ∧
  st.live = liveOf cfg.synth

/-- Live settings within the documented bounds. -/
def validLive (l : LiveSettings) : Prop :=
  -24 ≤ l.transpose ∧ l.transpose ≤ 24 ∧ 0 ≤ l.volume ∧ l.volume ≤ 1

/-- One handle_encoder_event step, state component only. -/
def encStep (st : CtrlState) (ev : String × ℤ) : CtrlState :=
  (handle_encoder_event st ev.1 ev.2).1

/- --------------------------------------------------- concrete state fixtures -/

/-- NoteSynth at full volume with one cached buffer key. -/
def synthCx : NoteSynth :=
  { mkNoteSynth false with volume := 1, cache := [("sine", 262, 1, 5, 160)] }

def key0 : KeyConfig := ⟨"K1", "R0", "C0", "C4", none⟩

def enc0 : EncoderConfig := ⟨"E1", 3, 4, "transpose", some 1, none, none⟩

def enc1 : EncoderConfig := ⟨"E2", 5, 6, "volume", some (1 / 20), none, none⟩

def enc2 : EncoderConfig := ⟨"E3", 7, 8, "waveform", none, none, none⟩

/-- Encoder with a fractional transpose step, allowed by the validator. -/
def enc3 : EncoderConfig := ⟨"E4", 9, 10, "transpose", some (3 / 2), none, none⟩

def synth0 : SynthSettings := ⟨"sine", 7 / 10, 0, 5, 120⟩

def app0 : AppSettings := ⟨"0.0.0.0", 8080, 12⟩

def cfg0 : ControllerConfig :=
  ⟨⟨[("R0", 1)], [("C0", 2)], [key0]⟩, [enc0, enc1, enc2, enc3], synth0, app0⟩

def store0 : StoreState := ⟨some cfg0, some cfg0⟩

/-- Controller as built by SynthController.__init__ on store0. -/
def st0 : CtrlState :=
  _apply_config
    { store := store0, config := cfg0, key_lookup := [], encoder_lookup := [],
      key_state := [], encoder_state := [], live := liveOf synth0,
      synth := mkNoteSynth false }
    cfg0

def key0D : KeyConfig := ⟨"K1", "R0", "C0", "D4", none⟩

/-- cfg0 after set_key_note K1 D4. -/
def cfg0D : ControllerConfig :=
  { cfg0 with matrix := { cfg0.matrix with keys := [key0D] } }

def enc0E : EncoderConfig := ⟨"E1", 3, 4, "volume", some 1, none, none⟩

/-- cfg0 after set_encoder_action E1 volume. -/
def cfg0E : ControllerConfig := { cfg0 with encoders := [enc0E, enc1, enc2, enc3] }

def enc1S : EncoderConfig := ⟨"E2", 5, 6, "volume", some 2, none, none⟩

/-- cfg0 after update_encoder E2 with step 2. -/
def cfg0S : ControllerConfig := { cfg0 with encoders := [enc0, enc1S, enc2, enc3] }

/-- cfg0 after update_synth_settings with volume 1/2. -/
def cfg0V : ControllerConfig :=
  { cfg0 with synth := { synth0 with volume := 1 / 2 } }

/-- Successor of a waveform under the cyclic +1 encoder step. -/
def nextWaveform (w : String) : String :=
  SUPPORTED_WAVEFORMS.getD
    ((((SUPPORTED_WAVEFORMS.indexOf w : ℤ) + 1) %
      (SUPPORTED_WAVEFORMS.length : ℤ)).toNat) "sine"

/-- One-key scanner: row pin 1, column pin 2, debounce 12 ms. -/
def sc0 : MatrixScanner :=
  { rows := [("R0", 1)], cols := [("C0", 2)], debounce := 12 / 1000,
    lookup := [((1, 2), "K")], state := [("K", false)], last := [("K", 0)] }

/- ------------------------------------------------------------------ theorems -/

theorem freqOfIndex_shift (m t : ℤ) :
    freqOfIndex (m + t) = freqOfIndex m * (2 : ℝ) ^ ((t : ℝ) / 12) := by
  unfold freqOfIndex
  have h1 : (((m + t : ℤ) : ℝ) - 69) / 12 = ((m : ℝ) - 69) / 12 + (t : ℝ) / 12 := by
    push_cast
    ring
  rw [h1, Real.rpow_add (by norm_num : (0 : ℝ) < 2)]
  ring

theorem isOkB_exists {ε α : Type} (e : Except ε α) (h : isOkB e = true) : ∃ a, e = .ok a := by
  cases e with
  | ok a => exact ⟨a, rfl⟩
  | error _ => simp [isOkB] at h

/-- Every canonical pitch-class name followed by an octave in the validated
    range parses successfully in audio.note_to_frequency. -/
theorem noteToMidi_canonical (p : String) (hp : p ∈ NOTE_NAMES) (oct : ℤ)
    (h1 : -1 ≤ oct) (h2 : oct ≤ 8) : isOkB (noteToMidi (p ++ toString oct)) = true := by
  fin_cases hp <;> interval_cases oct <;> decide

theorem octaveTail_shape (p : String) (rem : List Char) (s' : String)
    (h : octaveTail p rem = .ok s') :
    ∃ oct : ℤ, -1 ≤ oct ∧ oct ≤ 8 ∧ s' = p ++ toString oct := by
  unfold octaveTail at h
  repeat' split at h
  all_goals try exact Except.noConfusion h
  rename_i octave heq hbounds
  exact ⟨octave, by omega, by omega, ((Except.ok.injEq _ _).mp h).symm⟩

/-- Successful _normalise_note output is a canonical pitch-class name with an
    in-range octave appended. -/
theorem normalise_note_shape (s s' : String) (h : _normalise_note s = .ok s') :
    ∃ p oct, p ∈ NOTE_NAMES ∧ -1 ≤ oct ∧ oct ≤ 8 ∧ s' = p ++ toString oct := by
  unfold _normalise_note at h
  cases hd : (pyStrip s).data with
  | nil => rw [hd, normaliseNoteAux] at h; exact Except.noConfusion h
  | cons c cs =>
    rw [hd] at h
    simp only [normaliseNoteAux] at h
    repeat' split at h
    all_goals try exact Except.noConfusion h
    all_goals
      obtain ⟨oct, h1, h2, h3⟩ := octaveTail_shape _ _ _ h
    all_goals
      exact ⟨_, oct, not_not.mp (by assumption), h1, h2, h3⟩

/-- C2 counterexample: audio.note_to_frequency does not normalize flats or
    case — it rejects Db4 and c#4 outright for transpose 0; the normalization
    the spec describes happens in config_store._normalise_note, which maps
    both spellings to C#4, a note the resolver accepts. -/
theorem note_to_frequency_rejects_unnormalized_cx :
    note_to_frequency "Db4" 0 = .error "unknown pitch class Db" ∧
    note_to_frequency "c#4" 0 = .error "unknown pitch class c#" ∧
    _normalise_note "Db4" = .ok "C#4" ∧
    _normalise_note "c#4" = .ok "C#4" ∧
    note_to_frequency "C#4" 0 = .ok (freqOfIndex 61) :=
  ⟨rfl, rfl, rfl, rfl, rfl⟩

/-- C2 (amended): note_to_frequency itself performs no flat or case
    normalization (it fails on Db4 and c#4); the normalization happens at
    validation time in _normalise_note, and every note accepted by
    _normalise_note resolves in note_to_frequency for every transpose. -/
theorem normalised_notes_resolve (s s' : String) (t : ℤ)
    (h : _normalise_note s = .ok s') : ∃ f, note_to_frequency s' t = .ok f := by
  obtain ⟨p, oct, hp, h1, h2, rfl⟩ := normalise_note_shape s s' h
  have hok := noteToMidi_canonical p hp oct h1 h2
  obtain ⟨m, hm⟩ := isOkB_exists _ hok
  exact ⟨freqOfIndex (m + t), by simp [note_to_frequency, hm]⟩

/-- C2 witness: the normalized form of Db4 resolves at transpose 5. -/
theorem normalised_notes_resolve_witness :
    ∃ f, note_to_frequency "C#4" 5 = .ok f :=
  normalised_notes_resolve "Db4" "C#4" 5 rfl

/-- C3: for every valid note and every transpose t, the resolved frequency is
    the untransposed frequency times 2 ^ (t / 12). -/
theorem note_to_frequency_transpose_invariant (note : String) (t : ℤ) (f : ℝ)
    (h : note_to_frequency note 0 = .ok f) :
    note_to_frequency note t = .ok (f * (2 : ℝ) ^ ((t : ℝ) / 12)) := by
  cases hm : noteToMidi note with
  | error e =>
    simp only [note_to_frequency, hm] at h
    exact Except.noConfusion h
  | ok m =>
    simp only [note_to_frequency, hm] at h ⊢
    rw [Except.ok.injEq] at h
    rw [← h, add_zero, freqOfIndex_shift]

/-- C3 witness: transposing A4 by 12 semitones multiplies 440 Hz by 2^(12/12). -/
theorem note_to_frequency_transpose_invariant_witness :
    note_to_frequency "A4" 12 = .ok (freqOfIndex 69 * (2 : ℝ) ^ (((12 : ℤ) : ℝ) / 12)) :=
  note_to_frequency_transpose_invariant "A4" 12 (freqOfIndex 69) rfl

/-- C4 counterexample: calling set_volume with 1.5 while the volume is 1.0
    passes a value different from the current one, yet the clamp to [0, 1]
    makes it equal to the current volume and the cache survives untouched. -/
theorem set_volume_out_of_range_keeps_cache_cx :
    (3 / 2 : ℚ) ≠ synthCx.volume ∧
    set_volume synthCx (3 / 2) = synthCx ∧
    synthCx.cache ≠ [] := by decide

/-- C4 (amended): the cache is emptied exactly when set_waveform or
    set_envelope receives a value different from the current one, and when
    set_volume's argument, after clamping to [0, 1], is not within math.isclose
    tolerance of the current volume; set_transpose never clears the cache. -/
theorem cache_invalidation_characterization (s : NoteSynth) (w : String) (v : ℚ)
    (a r t : ℤ) :
    (set_waveform s w).cache = (if w = s.waveform then s.cache else []) ∧
    (set_volume s v).cache = (if isclose (max 0 (min 1 v)) s.volume then s.cache else []) ∧
    (set_envelope s a r).cache = (if a = s.attack_ms ∧ r = s.release_ms then s.cache else []) ∧
    (set_transpose s t).cache = s.cache := by
  refine ⟨?_, ?_, ?_, ?_⟩
  · by_cases hw : w = s.waveform <;> simp [set_waveform, hw]
  · by_cases hv : isclose (max 0 (min 1 v)) s.volume <;> simp [set_volume, hv]
  · simp only [set_envelope]
    split_ifs <;> first | rfl | tauto
  · simp only [set_transpose]
    split_ifs <;> rfl

theorem buildKeyState_all_false (c : ControllerConfig) :
    ∀ p ∈ buildKeyState c, p.2 = false := by
  have main : ∀ (l : List KeyConfig) (d : List (String × Bool)),
      (∀ p ∈ d, p.2 = false) →
      ∀ p ∈ l.foldl (fun d k => dset d k.id false) d, p.2 = false := by
    intro l
    induction l with
    | nil => intro d hd; simpa using hd
    | cons k tl ih =>
      intro d hd
      apply ih
      intro p hp
      simp only [dset] at hp
      split at hp
      · obtain ⟨q, hq, rfl⟩ := List.mem_map.mp hp
        split_ifs with hc
        · rfl
        · exact hd q hq
      · rcases List.mem_append.mp hp with hmem | hmem
        · exact hd p hmem
        · simp only [List.mem_singleton] at hmem
          subst hmem
          rfl
  exact main _ [] (by simp)

theorem reconciled_apply (st : CtrlState) (cfg : ControllerConfig) :
    reconciled (_apply_config st cfg) cfg :=
  ⟨rfl, rfl, rfl, rfl, buildKeyState_all_false cfg, rfl, rfl⟩

theorem finishSave_reconciled (st : CtrlState)
    (r : Except String (StoreState × ControllerConfig)) (cfg : ControllerConfig)
    (h : (finishSave st r).2 = .ok cfg) : reconciled (finishSave st r).1 cfg := by
  cases r with
  | error e => simp [finishSave] at h
  | ok sc =>
    obtain ⟨s, config⟩ := sc
    simp only [finishSave] at h ⊢
    obtain rfl := (Except.ok.injEq _ _).mp h
    exact reconciled_apply _ _

/-- C7: every successful configuration mutation or reload leaves the
    controller fully reconciled against the returned configuration: lookup
    tables rebuilt, all pressed flags false, encoder history empty, live
    settings equal to the configuration's synth settings. -/
theorem mutations_trigger_full_reconciliation :
    (∀ st payload cfg, (replaceOp st payload).2 = .ok cfg →
      reconciled (replaceOp st payload).1 cfg) ∧
    (∀ st p cfg, (update_part st p).2 = .ok cfg → reconciled (update_part st p).1 cfg) ∧
    (∀ st cfg, (reloadOp st).2 = .ok cfg → reconciled (reloadOp st).1 cfg) ∧
    (∀ st k n cfg, (set_key_note st k n).2 = .ok cfg →
      reconciled (set_key_note st k n).1 cfg) ∧
    (∀ st n a cfg, (set_encoder_action st n a).2 = .ok cfg →
      reconciled (set_encoder_action st n a).1 cfg) ∧
    (∀ st n u cfg, (update_encoder st n u).2 = .ok cfg →
      reconciled (update_encoder st n u).1 cfg) ∧
    (∀ st u cfg, (update_synth_settings st u).2 = .ok cfg →
      reconciled (update_synth_settings st u).1 cfg) := by
  refine ⟨?_, ?_, ?_, ?_, ?_, ?_, ?_⟩
  · intro st payload cfg h
    exact finishSave_reconciled _ _ _ h
  · intro st p cfg h
    exact finishSave_reconciled _ _ _ h
  · intro st cfg h
    exact finishSave_reconciled _ _ _ h
  · intro st k n cfg h
    unfold set_key_note at h ⊢
    cases hk : dget st.key_lookup k with
    | none => rw [hk] at h; exact Except.noConfusion h
    | some key_cfg =>
      rw [hk] at h
      exact finishSave_reconciled _ _ _ h
  · intro st n a cfg h
    unfold set_encoder_action at h ⊢
    cases hk : dget st.encoder_lookup n with
    | none => rw [hk] at h; exact Except.noConfusion h
    | some enc_cfg =>
      rw [hk] at h
      exact finishSave_reconciled _ _ _ h
  · intro st n u cfg h
    unfold update_encoder at h ⊢
    cases hk : dget st.encoder_lookup n with
    | none => rw [hk] at h; exact Except.noConfusion h
    | some enc_cfg =>
      rw [hk] at h
      dsimp only at h ⊢
      split at h
      · exact Except.noConfusion h
      · rename_i hne
        rw [if_neg hne]
        exact finishSave_reconciled _ _ _ h
  · intro st u cfg h
    unfold update_synth_settings at h ⊢
    split at h
    · exact Except.noConfusion h
    · rename_i hne
      rw [if_neg hne]
      exact finishSave_reconciled _ _ _ h

/-- C7 witness: each of the seven mutating operations succeeds on a concrete
    controller and leaves it reconciled against the returned configuration. -/
theorem mutations_trigger_full_reconciliation_witness :
    reconciled (replaceOp st0 cfg0).1 cfg0 ∧
    reconciled (update_part st0 ⟨none, none, none, none⟩).1 cfg0 ∧
    reconciled (reloadOp st0).1 cfg0 ∧
    reconciled (set_key_note st0 "K1" "D4").1 cfg0D ∧
    reconciled (set_encoder_action st0 "E1" "volume").1 cfg0E ∧
    reconciled (update_encoder st0 "E2" ⟨none, some (some 2), none, none⟩).1 cfg0S ∧
    reconciled (update_synth_settings st0 ⟨none, some (1 / 2), none, none, none⟩).1 cfg0V :=
  ⟨mutations_trigger_full_reconciliation.1 st0 cfg0 cfg0 rfl,
   mutations_trigger_full_reconciliation.2.1 st0 ⟨none, none, none, none⟩ cfg0 rfl,
   mutations_trigger_full_reconciliation.2.2.1 st0 cfg0 rfl,
   mutations_trigger_full_reconciliation.2.2.2.1 st0 "K1" "D4" cfg0D rfl,
   mutations_trigger_full_reconciliation.2.2.2.2.1 st0 "E1" "volume" cfg0E rfl,
   mutations_trigger_full_reconciliation.2.2.2.2.2.1 st0 "E2" ⟨none, some (some 2), none, none⟩ cfg0S rfl,
   mutations_trigger_full_reconciliation.2.2.2.2.2.2 st0 ⟨none, some (1 / 2), none, none, none⟩ cfg0V rfl⟩

/-- C1 code bug: set_key_note with a note that fails validation raises, the
    persisted store is untouched, but the in-memory configuration and the key
    lookup table keep the invalid note — the mutation is not all-or-nothing. -/
theorem set_key_note_mutates_memory_on_invalid_note :
    (dget st0.key_lookup "K1").map KeyConfig.note = some "C4" ∧
    (set_key_note st0 "K1" "X4").2 = .error "unsupported pitch class X" ∧
    (dget (set_key_note st0 "K1" "X4").1.key_lookup "K1").map KeyConfig.note = some "X4" ∧
    (set_key_note st0 "K1" "X4").1.config.matrix.keys.map KeyConfig.note = ["X4"] ∧
    (set_key_note st0 "K1" "X4").1.store = st0.store :=
  ⟨rfl, rfl, rfl, rfl, rfl⟩


theorem dget_dset_self {κ α : Type} [BEq κ] [LawfulBEq κ]
    (d : List (κ × α)) (k : κ) (v : α) : dget (dset d k v) k = some v := by
  unfold dget dset
  split
  · rename_i hany
    induction d with
    | nil => simp at hany
    | cons a tl ih =>
      rw [List.map_cons]
      cases ha : a.1 == k with
      | true => simp [List.find?, ha]
      | false =>
        simp only [List.any_cons, Bool.or_eq_true, ha, Bool.false_eq_true, false_or] at hany
        simp only [ha, Bool.false_eq_true, if_false, List.find?, Bool.cond_eq_ite, if_neg]
        simpa [List.find?] using ih hany
  · rename_i hany
    induction d with
    | nil => simp [List.find?]
    | cons a tl ih =>
      cases ha : a.1 == k with
      | true => exact absurd (by simp [List.any_cons, ha]) hany
      | false =>
        rw [List.cons_append]
        simp only [List.find?, ha, Bool.cond_eq_ite, Bool.false_eq_true, if_false]
        exact ih (fun hc => hany (by simp [List.any_cons, hc]))

theorem dget_dset_ne {κ α : Type} [BEq κ] [LawfulBEq κ]
    (d : List (κ × α)) (k q : κ) (v : α) (hne : q ≠ k) :
    dget (dset d k v) q = dget d q := by
  have hqk : (k == q) = false := by
    simp only [beq_eq_false_iff_ne]
    exact fun e => hne e.symm
  unfold dget dset
  split
  · rename_i hany
    clear hany
    induction d with
    | nil => rfl
    | cons a tl ih =>
      rw [List.map_cons]
      cases ha : a.1 == k with
      | true =>
        have ha1 : a.1 = k := by simpa using ha
        have haq : (a.1 == q) = false := by
          simp only [beq_eq_false_iff_ne, ha1]
          exact fun e => hne e.symm
        simp only [ha, if_true, List.find?, haq, hqk, Bool.cond_eq_ite,
          Bool.false_eq_true, if_false]
        exact ih
      | false =>
        simp only [ha, Bool.false_eq_true, if_false, List.find?, Bool.cond_eq_ite]
        cases haq : a.1 == q with
        | true => simp
        | false =>
          simp only [Bool.false_eq_true, if_false]
          exact ih
  · rename_i hany
    clear hany
    induction d with
    | nil => simp [List.find?, hqk]
    | cons a tl ih =>
      rw [List.cons_append]
      simp only [List.find?, Bool.cond_eq_ite]
      cases haq : a.1 == q with
      | true => simp
      | false =>
        simp only [Bool.false_eq_true, if_false]
        exact ih

theorem mem_fst_of_dget_some {κ α : Type} [BEq κ] [LawfulBEq κ]
    (l : List (κ × α)) (q : κ) (v : α) (h : dget l q = some v) :
    q ∈ l.map Prod.fst := by
  unfold dget at h
  cases hf : l.find? (fun p => p.1 == q) with
  | none => rw [hf] at h; simp at h
  | some p =>
    have hmem := List.mem_of_find?_eq_some hf
    have htest := List.find?_some hf
    have hpq : p.1 = q := by simpa using htest
    rw [← hpq]
    exact List.mem_map_of_mem _ hmem

theorem handle_key_event_key_state (st : CtrlState) (kind key_id : String) :
    (handle_key_event st kind key_id).1.key_state =
      dset st.key_state key_id (kind == "press") := by
  unfold handle_key_event
  dsimp only
  cases hdg : dget st.key_lookup key_id with
  | none => rfl
  | some key_cfg =>
    dsimp only
    by_cases hp : (kind == "press") = true
    · simp [hp]
    · simp [hp]

/-- C10: handle_key_event records the pressed flag for the given id before
    any lookup, so an id absent from the configuration still lands in
    key_state and get_runtime_state reports it afterwards. -/
theorem key_state_written_unconditionally (st : CtrlState) (kind key_id : String) :
    dget ((handle_key_event st kind key_id).1.key_state) key_id = some (kind == "press") ∧
    (key_id ∉ st.config.matrix.keys.map KeyConfig.id →
      key_id ∈ ((get_runtime_state (handle_key_event st kind key_id).1).1.map Prod.fst)) := by
  have hks := handle_key_event_key_state st kind key_id
  constructor
  · rw [hks]
    exact dget_dset_self _ _ _
  · intro hout
    have h1 : dget ((handle_key_event st kind key_id).1.key_state) key_id =
        some (kind == "press") := by
      rw [hks]
      exact dget_dset_self _ _ _
    exact mem_fst_of_dget_some _ _ _ h1

/-- C10 witness: pressing the unconfigured id ghost lands it in runtime
    key state even though the configuration has only K1. -/
theorem key_state_written_unconditionally_witness :
    dget ((handle_key_event st0 "press" "ghost").1.key_state) "ghost" =
      some ("press" == "press") ∧
    "ghost" ∈ ((get_runtime_state (handle_key_event st0 "press" "ghost").1).1.map Prod.fst) :=
  ⟨(key_state_written_unconditionally st0 "press" "ghost").1,
   (key_state_written_unconditionally st0 "press" "ghost").2 (by decide)⟩

/-- C6 counterexample: the degraded record for an unknown encoder does not
    carry the action field of the encoder event contract at all. -/
theorem unknown_encoder_record_missing_action_cx :
    (handle_encoder_event st0 "ghost" 1).2.map Prod.fst = ["type", "name", "value", "delta"] ∧
    "action" ∉ (handle_encoder_event st0 "ghost" 1).2.map Prod.fst := by
  constructor
  · rfl
  · intro hmem
    rw [show (handle_encoder_event st0 "ghost" 1).2.map Prod.fst =
      ["type", "name", "value", "delta"] from rfl] at hmem
    simp at hmem

/-- C6 (amended): an unknown key id yields the six-field key record with null
    note and freq; an unknown encoder name yields a degraded record with null
    value that carries type, name, value and delta but omits action; neither
    handler can raise. -/
theorem unknown_identifier_degraded_records :
    (∀ st kind key_id, dget st.key_lookup key_id = none →
      (handle_key_event st kind key_id).2 =
        [("type", PyVal.vs "key"), ("kind", PyVal.vs kind), ("id", PyVal.vs key_id),
         ("note", PyVal.vnull), ("freq", PyVal.vnull), ("label", PyVal.vs key_id)]) ∧
    (∀ st name delta, dget st.encoder_lookup name = none →
      (handle_encoder_event st name delta).2 =
        [("type", PyVal.vs "enc"), ("name", PyVal.vs name),
         ("value", PyVal.vnull), ("delta", PyVal.vi delta)] ∧
      "action" ∉ ((handle_encoder_event st name delta).2.map Prod.fst)) := by
  constructor
  · intro st kind key_id h
    unfold handle_key_event
    dsimp only
    rw [h]
  · intro st name delta h
    unfold handle_encoder_event
    rw [h]
    exact ⟨rfl, by simp⟩

/-- C6 witness: concrete unknown identifiers produce exactly the degraded
    records. -/
theorem unknown_identifier_degraded_records_witness :
    (handle_key_event st0 "press" "nokey").2 =
      [("type", PyVal.vs "key"), ("kind", PyVal.vs "press"), ("id", PyVal.vs "nokey"),
       ("note", PyVal.vnull), ("freq", PyVal.vnull), ("label", PyVal.vs "nokey")] ∧
    (handle_encoder_event st0 "noenc" (-2)).2 =
      [("type", PyVal.vs "enc"), ("name", PyVal.vs "noenc"),
       ("value", PyVal.vnull), ("delta", PyVal.vi (-2))] ∧
    "action" ∉ ((handle_encoder_event st0 "noenc" (-2)).2.map Prod.fst) :=
  ⟨unknown_identifier_degraded_records.1 st0 "press" "nokey" rfl,
   (unknown_identifier_degraded_records.2 st0 "noenc" (-2) rfl).1,
   (unknown_identifier_degraded_records.2 st0 "noenc" (-2) rfl).2⟩

theorem encStep_preserves_validLive (st : CtrlState) (ev : String × ℤ)
    (h : validLive st.live) : validLive (encStep st ev).live := by
  unfold encStep handle_encoder_event
  cases hk : dget st.encoder_lookup ev.1 with
  | none => exact h
  | some enc =>
    dsimp only
    by_cases ha : enc.action = "transpose"
    · rw [if_pos ha]
      exact ⟨le_max_left _ _, max_le (by norm_num) (min_le_left _ _), h.2.2.1, h.2.2.2⟩
    · rw [if_neg ha]
      by_cases hb : enc.action = "volume"
      · rw [if_pos hb]
        exact ⟨h.1, h.2.1, le_max_left _ _, max_le (by norm_num) (min_le_left _ _)⟩
      · rw [if_neg hb]
        by_cases hc : enc.action = "waveform"
        · rw [if_pos hc]
          exact h
        · rw [if_neg hc]
          exact h

/-- C8 (amended): live transpose stays in [-24, 24] and live volume in [0, 1]
    across any sequence of handle_encoder_event calls; a transpose step adds
    delta times int(step) (the configured step truncated to an integer,
    default 1) before clamping, and a volume step adds delta times the
    configured step (default 0.05) before clamping. -/
theorem encoder_bounds_and_step_formulas :
    (∀ st (events : List (String × ℤ)), validLive st.live →
      validLive ((events.foldl encStep st).live)) ∧
    (∀ st name delta enc, dget st.encoder_lookup name = some enc →
      enc.action = "transpose" →
      (handle_encoder_event st name delta).1.live.transpose =
        clampZ (-24) 24 (st.live.transpose + delta * pyTrunc (pyOrStep enc.step 1))) ∧
    (∀ st name delta enc, dget st.encoder_lookup name = some enc →
      enc.action = "volume" →
      (handle_encoder_event st name delta).1.live.volume =
        clampQ 0 1 (st.live.volume + (delta : ℚ) * pyOrStep enc.step (1 / 20))) := by
  refine ⟨?_, ?_, ?_⟩
  · intro st events
    induction events generalizing st with
    | nil => intro h; exact h
    | cons ev tl ih =>
      intro h
      exact ih _ (encStep_preserves_validLive st ev h)
  · intro st name delta enc hk ha
    simp [handle_encoder_event, hk, ha]
  · intro st name delta enc hk ha
    simp [handle_encoder_event, hk, ha]

/-- C8 witness: on the concrete controller, a burst of transpose and volume
    steps keeps the live settings in range, and single steps compute the
    clamped formulas. -/
theorem encoder_bounds_and_step_formulas_witness :
    validLive (([("E1", 30), ("E2", -50), ("E1", -100)].foldl encStep st0).live) ∧
    (handle_encoder_event st0 "E1" 7).1.live.transpose =
      clampZ (-24) 24 (st0.live.transpose + 7 * pyTrunc (pyOrStep enc0.step 1)) ∧
    (handle_encoder_event st0 "E2" (-3)).1.live.volume =
      clampQ 0 1 (st0.live.volume + ((-3 : ℤ) : ℚ) * pyOrStep enc1.step (1 / 20)) :=
  ⟨encoder_bounds_and_step_formulas.1 st0 [("E1", 30), ("E2", -50), ("E1", -100)]
     ⟨by decide, by decide, by decide, by decide⟩,
   encoder_bounds_and_step_formulas.2.1 st0 "E1" 7 enc0 rfl rfl,
   encoder_bounds_and_step_formulas.2.2 st0 "E2" (-3) enc1 rfl rfl⟩

/-- C8 counterexample: encoder E4 is configured with action transpose and
    step 1.5; one +1 delta moves the live transpose by int(1.5) = 1, not by
    the claimed clamp(v + delta * step) = 1.5. -/
theorem transpose_step_truncation_cx :
    (handle_encoder_event st0 "E4" 1).1.live.transpose = 1 ∧
    ((handle_encoder_event st0 "E4" 1).1.live.transpose : ℚ) ≠
      clampQ (-24) 24 ((st0.live.transpose : ℚ) + (1 : ℚ) * (3 / 2)) := by
  constructor
  · decide
  · decide

theorem waveform_lookup_preserved (s : CtrlState) (name : String) (delta : ℤ) :
    (handle_encoder_event s name delta).1.encoder_lookup = s.encoder_lookup := by
  unfold handle_encoder_event
  cases hk : dget s.encoder_lookup name with
  | none => rfl
  | some enc =>
    dsimp only
    split_ifs <;> rfl

theorem waveform_single (s : CtrlState) (name : String) (delta : ℤ) (enc : EncoderConfig)
    (hk : dget s.encoder_lookup name = some enc) (ha : enc.action = "waveform")
    (hw : s.live.waveform ∈ SUPPORTED_WAVEFORMS) :
    (handle_encoder_event s name delta).1.live.waveform =
      SUPPORTED_WAVEFORMS.getD
        ((((SUPPORTED_WAVEFORMS.indexOf s.live.waveform : ℤ) + delta) %
          (SUPPORTED_WAVEFORMS.length : ℤ)).toNat) "sine" := by
  unfold handle_encoder_event
  rw [hk]
  dsimp only
  rw [if_neg (by rw [ha]; decide), if_neg (by rw [ha]; decide), if_pos ha, if_pos hw]

theorem waveform_next_step (s : CtrlState) (name : String) (enc : EncoderConfig)
    (hk : dget s.encoder_lookup name = some enc) (ha : enc.action = "waveform")
    (w w' : String) (hcur : s.live.waveform = w) (hm : w ∈ SUPPORTED_WAVEFORMS)
    (he : nextWaveform w = w') :
    (handle_encoder_event s name 1).1.live.waveform = w' ∧
    dget (handle_encoder_event s name 1).1.encoder_lookup name = some enc := by
  constructor
  · have hs := waveform_single s name 1 enc hk ha (by rw [hcur]; exact hm)
    rw [hs, hcur]
    exact he
  · rw [waveform_lookup_preserved]
    exact hk

theorem waveform_cycle4 (st : CtrlState) (name : String) (enc : EncoderConfig)
    (hk : dget st.encoder_lookup name = some enc) (ha : enc.action = "waveform")
    (w1 w2 w3 w4 : String) (hcur : st.live.waveform = w1)
    (m1 : w1 ∈ SUPPORTED_WAVEFORMS) (m2 : w2 ∈ SUPPORTED_WAVEFORMS)
    (m3 : w3 ∈ SUPPORTED_WAVEFORMS) (m4 : w4 ∈ SUPPORTED_WAVEFORMS)
    (e1 : nextWaveform w1 = w2) (e2 : nextWaveform w2 = w3)
    (e3 : nextWaveform w3 = w4) (e4 : nextWaveform w4 = w1) :
    ((fun s => (handle_encoder_event s name 1).1)^[SUPPORTED_WAVEFORMS.length] st).live.waveform
      = st.live.waveform := by
  obtain ⟨a1, b1⟩ := waveform_next_step st name enc hk ha w1 w2 hcur m1 e1
  obtain ⟨a2, b2⟩ := waveform_next_step _ name enc b1 ha w2 w3 a1 m2 e2
  obtain ⟨a3, b3⟩ := waveform_next_step _ name enc b2 ha w3 w4 a2 m3 e3
  obtain ⟨a4, _⟩ := waveform_next_step _ name enc b3 ha w4 w1 a3 m4 e4
  show (handle_encoder_event (handle_encoder_event (handle_encoder_event
    (handle_encoder_event st name 1).1 name 1).1 name 1).1 name 1).1.live.waveform
      = st.live.waveform
  rw [a4, hcur]

/-- C9: the waveform action advances a cyclic index into the fixed waveform
    list by delta, wrapping modulo the list length with step ignored, and
    applying it with delta one exactly length-many times returns the live
    waveform to its original value. -/
theorem waveform_cycle_action :
    (∀ st name delta enc, dget st.encoder_lookup name = some enc →
      enc.action = "waveform" → st.live.waveform ∈ SUPPORTED_WAVEFORMS →
      (handle_encoder_event st name delta).1.live.waveform =
        SUPPORTED_WAVEFORMS.getD
          ((((SUPPORTED_WAVEFORMS.indexOf st.live.waveform : ℤ) + delta) %
            (SUPPORTED_WAVEFORMS.length : ℤ)).toNat) "sine") ∧
    (∀ st name enc, dget st.encoder_lookup name = some enc →
      enc.action = "waveform" → st.live.waveform ∈ SUPPORTED_WAVEFORMS →
      ((fun s => (handle_encoder_event s name 1).1)^[SUPPORTED_WAVEFORMS.length] st).live.waveform
        = st.live.waveform) := by
  constructor
  · intro st name delta enc hk ha hw
    exact waveform_single st name delta enc hk ha hw
  · intro st name enc hk ha hw
    have hw4 : st.live.waveform = "sine" ∨ st.live.waveform = "square" ∨
        st.live.waveform = "saw" ∨ st.live.waveform = "triangle" := by
      simpa [SUPPORTED_WAVEFORMS] using hw
    rcases hw4 with h0 | h0 | h0 | h0
    · exact waveform_cycle4 st name enc hk ha "sine" "square" "saw" "triangle" h0
        (by decide) (by decide) (by decide) (by decide)
        (by decide) (by decide) (by decide) (by decide)
    · exact waveform_cycle4 st name enc hk ha "square" "saw" "triangle" "sine" h0
        (by decide) (by decide) (by decide) (by decide)
        (by decide) (by decide) (by decide) (by decide)
    · exact waveform_cycle4 st name enc hk ha "saw" "triangle" "sine" "square" h0
        (by decide) (by decide) (by decide) (by decide)
        (by decide) (by decide) (by decide) (by decide)
    · exact waveform_cycle4 st name enc hk ha "triangle" "sine" "square" "saw" h0
        (by decide) (by decide) (by decide) (by decide)
        (by decide) (by decide) (by decide) (by decide)

/-- C9 witness: one step on the waveform encoder E3 follows the cyclic-index
    formula, and four steps return the live waveform to sine. -/
theorem waveform_cycle_action_witness :
    (handle_encoder_event st0 "E3" 1).1.live.waveform =
      SUPPORTED_WAVEFORMS.getD
        ((((SUPPORTED_WAVEFORMS.indexOf st0.live.waveform : ℤ) + 1) %
          (SUPPORTED_WAVEFORMS.length : ℤ)).toNat) "sine" ∧
    ((fun s => (handle_encoder_event s "E3" 1).1)^[SUPPORTED_WAVEFORMS.length] st0).live.waveform
      = st0.live.waveform :=
  ⟨waveform_cycle_action.1 st0 "E3" 1 enc2 rfl rfl (by decide),
   waveform_cycle_action.2 st0 "E3" enc2 rfl rfl (by decide)⟩

theorem scanCols_eq (lookup : List ((ℤ × ℤ) × String)) (d tnow : ℚ)
    (reads : ℤ → ℤ → ℤ) (r : String × ℤ) (cols : List (String × ℤ))
    (init : List (String × String) × List (String × Bool) × List (String × ℚ)) :
    cols.foldl
      (fun acc2 c =>
        match dget lookup (r.2, c.2) with
        | none => acc2
        | some kid =>
          if kid = "" then acc2
          else scanEvent d tnow acc2 (kid, reads r.2 c.2 == 0)) init =
    ((cols.map (fun c => (r, c))).filterMap
      (fun rc =>
        match dget lookup (rc.1.2, rc.2.2) with
        | none => none
        | some kid =>
          if kid = "" then none
          else some (kid, reads rc.1.2 rc.2.2 == 0))).foldl (scanEvent d tnow) init := by
  induction cols generalizing init with
  | nil => rfl
  | cons c tl ih =>
    simp only [List.foldl_cons, List.map_cons, List.filterMap_cons]
    cases hi : dget lookup (r.2, c.2) with
    | none => exact ih init
    | some kid =>
      by_cases hk : kid = ""
      · simp only [hk, if_true, if_pos rfl]
        exact ih init
      · simp only [if_neg hk, List.foldl_cons]
        exact ih _

theorem scanRows_eq (lookup : List ((ℤ × ℤ) × String)) (d tnow : ℚ)
    (reads : ℤ → ℤ → ℤ) (rows cols : List (String × ℤ))
    (init : List (String × String) × List (String × Bool) × List (String × ℚ)) :
    rows.foldl
      (fun acc r =>
        cols.foldl
          (fun acc2 c =>
            match dget lookup (r.2, c.2) with
            | none => acc2
            | some kid =>
              if kid = "" then acc2
              else scanEvent d tnow acc2 (kid, reads r.2 c.2 == 0)) acc) init =
    ((rows.bind (fun r => cols.map (fun c => (r, c)))).filterMap
      (fun rc =>
        match dget lookup (rc.1.2, rc.2.2) with
        | none => none
        | some kid =>
          if kid = "" then none
          else some (kid, reads rc.1.2 rc.2.2 == 0))).foldl (scanEvent d tnow) init := by
  induction rows generalizing init with
  | nil => rfl
  | cons r tl ih =>
    simp only [List.foldl_cons, List.cons_bind, List.filterMap_append, List.foldl_append]
    rw [← scanCols_eq lookup d tnow reads r cols init]
    exact ih _

theorem scan_once_eq (sc : MatrixScanner) (reads : ℤ → ℤ → ℤ) (tnow : ℚ) :
    scan_once sc reads tnow =
      ((scanFold sc reads tnow).1,
       { sc with state := (scanFold sc reads tnow).2.1,
                 last := (scanFold sc reads tnow).2.2 }) := by
  unfold scan_once scanFold scanObsList
  dsimp only
  rw [scanRows_eq sc.lookup sc.debounce tnow reads sc.rows sc.cols ([], sc.state, sc.last)]

theorem scanEvent_other_key (d t : ℚ)
    (acc : List (String × String) × List (String × Bool) × List (String × ℚ))
    (ob : String × Bool) (k : String) (hne : ob.1 ≠ k) :
    dget (scanEvent d t acc ob).2.1 k = dget acc.2.1 k ∧
    dget (scanEvent d t acc ob).2.2 k = dget acc.2.2 k ∧
    (scanEvent d t acc ob).1.filter (fun e => e.2 == k) =
      acc.1.filter (fun e => e.2 == k) := by
  unfold scanEvent
  dsimp only
  by_cases h1 : ob.2 ≠ (dget acc.2.1 ob.1).getD false
  · rw [if_pos h1]
    by_cases h2 : t - (dget acc.2.2 ob.1).getD 0 ≥ d
    · rw [if_pos h2]
      refine ⟨dget_dset_ne _ _ _ _ (fun e => hne e.symm),
        dget_dset_ne _ _ _ _ (fun e => hne e.symm), ?_⟩
      rw [List.filter_append]
      simp [hne]
    · rw [if_neg h2]
      exact ⟨rfl, rfl, rfl⟩
  · rw [if_neg h1]
    exact ⟨rfl, rfl, rfl⟩

theorem scanFold_other_keys (d t : ℚ)
    (obs : List (String × Bool)) (k : String) :
    ∀ (acc : List (String × String) × List (String × Bool) × List (String × ℚ)),
    (∀ ob ∈ obs, ob.1 ≠ k) →
    dget (obs.foldl (scanEvent d t) acc).2.1 k = dget acc.2.1 k ∧
    dget (obs.foldl (scanEvent d t) acc).2.2 k = dget acc.2.2 k ∧
    (obs.foldl (scanEvent d t) acc).1.filter (fun e => e.2 == k) =
      acc.1.filter (fun e => e.2 == k) := by
  induction obs with
  | nil => intro acc _; exact ⟨rfl, rfl, rfl⟩
  | cons ob tl ih =>
    intro acc h
    have hob : ob.1 ≠ k := h ob (List.mem_cons_self _ _)
    have hstep := scanEvent_other_key d t acc ob k hob
    have htl := ih (scanEvent d t acc ob) (fun x hx => h x (List.mem_cons_of_mem _ hx))
    rw [List.foldl_cons]
    exact ⟨htl.1.trans hstep.1, htl.2.1.trans hstep.2.1, htl.2.2.trans hstep.2.2⟩

theorem scanFold_single_key (d t : ℚ) (obs : List (String × Bool)) (k : String) (p : Bool) :
    ∀ (acc : List (String × String) × List (String × Bool) × List (String × ℚ)),
    obs.filter (fun ob => ob.1 == k) = [(k, p)] →
    (dget (obs.foldl (scanEvent d t) acc).2.1 k =
      (if p ≠ (dget acc.2.1 k).getD false ∧ d ≤ t - (dget acc.2.2 k).getD 0
       then some p else dget acc.2.1 k)) ∧
    (dget (obs.foldl (scanEvent d t) acc).2.2 k =
      (if p ≠ (dget acc.2.1 k).getD false ∧ d ≤ t - (dget acc.2.2 k).getD 0
       then some t else dget acc.2.2 k)) ∧
    ((obs.foldl (scanEvent d t) acc).1.filter (fun e => e.2 == k) =
      acc.1.filter (fun e => e.2 == k) ++
        (if p ≠ (dget acc.2.1 k).getD false ∧ d ≤ t - (dget acc.2.2 k).getD 0
         then [((if p then "press" else "release"), k)] else [])) := by
  induction obs with
  | nil => intro acc h; simp at h
  | cons ob tl ih =>
    intro acc hf
    cases hobk : ob.1 == k with
    | false =>
      have hne : ob.1 ≠ k := by simpa using hobk
      rw [List.filter_cons_of_neg (by simpa using hobk)] at hf
      have hstep := scanEvent_other_key d t acc ob k hne
      have htl := ih (scanEvent d t acc ob) hf
      rw [List.foldl_cons]
      rw [hstep.1, hstep.2.1, hstep.2.2] at htl
      exact htl
    | true =>
      rw [List.filter_cons_of_pos (by simpa using hobk)] at hf
      have hob2 : ob = (k, p) := List.head_eq_of_cons_eq hf
      have htlnil : tl.filter (fun ob => ob.1 == k) = [] := List.tail_eq_of_cons_eq hf
      subst hob2
      have htlkeys : ∀ x ∈ tl, x.1 ≠ k := by
        intro x hx hc
        have hmem : x ∈ tl.filter (fun ob => ob.1 == k) :=
          List.mem_filter.mpr ⟨hx, by simpa using hc⟩
        rw [htlnil] at hmem
        simp at hmem
      rw [List.foldl_cons]
      by_cases hacc : p ≠ (dget acc.2.1 k).getD false ∧ d ≤ t - (dget acc.2.2 k).getD 0
      · have hstep1 : scanEvent d t acc (k, p) =
            (acc.1 ++ [((if p then "press" else "release"), k)],
             dset acc.2.1 k p, dset acc.2.2 k t) := by
          unfold scanEvent
          dsimp only
          rw [if_pos hacc.1, if_pos hacc.2]
        rw [hstep1]
        have hrest := scanFold_other_keys d t tl k
          (acc.1 ++ [((if p then "press" else "release"), k)],
           dset acc.2.1 k p, dset acc.2.2 k t) htlkeys
        refine ⟨?_, ?_, ?_⟩
        · rw [if_pos hacc, hrest.1]
          exact dget_dset_self _ _ _
        · rw [if_pos hacc, hrest.2.1]
          exact dget_dset_self _ _ _
        · rw [if_pos hacc, hrest.2.2, List.filter_append]
          simp
      · have hstep0 : scanEvent d t acc (k, p) = acc := by
          unfold scanEvent
          dsimp only
          by_cases hx : p ≠ (dget acc.2.1 k).getD false
          · rw [if_pos hx]
            have hy : ¬(t - (dget acc.2.2 k).getD 0 ≥ d) := fun hc => hacc ⟨hx, hc⟩
            rw [if_neg hy]
          · rw [if_neg hx]
        rw [hstep0]
        have hrest := scanFold_other_keys d t tl k acc htlkeys
        rw [if_neg hacc, if_neg hacc, if_neg hacc]
        simpa using hrest

/-- C5 (amended): in a scan pass observing key k exactly once with observed
    state p, a transition event for k is emitted exactly when p differs from
    the key's last-known state and the time since its last accepted
    transition is at least (greater than or equal to) the debounce window —
    the code accepts at exactly the window boundary; a dropped transition
    leaves the key's recorded state and timestamp untouched, an accepted one
    records p and the scan time. -/
theorem scan_once_debounce_characterization (sc : MatrixScanner) (reads : ℤ → ℤ → ℤ)
    (tnow : ℚ) (k : String) (p : Bool)
    (hobs : (scanObsList sc reads).filter (fun ob => ob.1 == k) = [(k, p)]) :
    ((scan_once sc reads tnow).1.filter (fun e => e.2 == k) =
      (if p ≠ (dget sc.state k).getD false ∧ sc.debounce ≤ tnow - (dget sc.last k).getD 0
       then [((if p then "press" else "release"), k)] else [])) ∧
    (dget (scan_once sc reads tnow).2.state k =
      (if p ≠ (dget sc.state k).getD false ∧ sc.debounce ≤ tnow - (dget sc.last k).getD 0
       then some p else dget sc.state k)) ∧
    (dget (scan_once sc reads tnow).2.last k =
      (if p ≠ (dget sc.state k).getD false ∧ sc.debounce ≤ tnow - (dget sc.last k).getD 0
       then some tnow else dget sc.last k)) := by
  have h := scanFold_single_key sc.debounce tnow (scanObsList sc reads) k p
    ([], sc.state, sc.last) hobs
  rw [scan_once_eq]
  refine ⟨?_, ?_, ?_⟩
  · have h3 := h.2.2
    simpa using h3
  · exact h.1
  · exact h.2.1

/-- C5 witness: on the one-key scanner a first press at time 1 is observed
    once, differs from the released initial state, clears the debounce
    window, and is therefore emitted with state and timestamp recorded. -/
theorem scan_once_debounce_characterization_witness :
    ((scan_once sc0 (fun _ _ => 0) 1).1.filter (fun e => e.2 == "K") =
      (if true ≠ (dget sc0.state "K").getD false ∧ sc0.debounce ≤ 1 - (dget sc0.last "K").getD 0
       then [((if true then "press" else "release"), "K")] else [])) ∧
    (dget (scan_once sc0 (fun _ _ => 0) 1).2.state "K" =
      (if true ≠ (dget sc0.state "K").getD false ∧ sc0.debounce ≤ 1 - (dget sc0.last "K").getD 0
       then some true else dget sc0.state "K")) ∧
    (dget (scan_once sc0 (fun _ _ => 0) 1).2.last "K" =
      (if true ≠ (dget sc0.state "K").getD false ∧ sc0.debounce ≤ 1 - (dget sc0.last "K").getD 0
       then some 1 else dget sc0.last "K")) :=
  scan_once_debounce_characterization sc0 (fun _ _ => 0) 1 "K" true (by decide)

/-- C5 counterexample: after an accepted press at time 1, the opposite
    transition observed exactly one debounce window later — not more than the
    window — is still emitted, so acceptance uses at-least, not
    strictly-more-than. -/
theorem debounce_boundary_accepts_cx :
    mkMatrixScanner [("R0", 1)] [("C0", 2)] [⟨"K", "R0", "C0"⟩] 12 = some sc0 ∧
    (scan_once sc0 (fun _ _ => 0) 1).1 = [("press", "K")] ∧
    (scan_once (scan_once sc0 (fun _ _ => 0) 1).2 (fun _ _ => 1) (1 + 12 / 1000)).1 =
      [("release", "K")] ∧
    ¬((1 + 12 / 1000 : ℚ) - 1 > sc0.debounce) := by decide
